import Mathlib

/-!
Verification of the query-cache coordination pattern described by the
specification of this repository.  The repository itself is a tutorial file
(src/Boards/summary.js) whose caching engine lives in an external library;
only its callers appear in the source.  Following the specification, the
engine (QueryCache with fetch, invalidate, optimisticUpdate, rollback and
prefetch) is modelled here from the specification text, while the optimistic
updater function of UpdateTodo (summary.js lines 141-145) is embedded
directly from the source with JavaScript object semantics.
-/

set_option autoImplicit false

namespace QC

/-- A primitive value usable inside a query key, for example a string such as
"todos" or a page number. -/
inductive Prim where
  | s (v : String)
  | n (v : Int)
deriving DecidableEq, Repr

/-- Modelled from the spec: a QueryKey is an ordered sequence of primitive
values; equality is structural. -/
abbrev QueryKey := List Prim

/-- Modelled from the spec: the status enumeration of a query entry. -/
inductive Status where
  | idle
  | loading
  | success
  | error
deriving DecidableEq, Repr

/-- Modelled from the spec: a QueryEntry holds the last successfully fetched
value, the status, the time of the last successful fetch (none when the entry
has never completed a fetch or has been invalidated), the freshness duration
and the last error. -/
structure QueryEntry (D E : Type) where
  data : Option D
  status : Status
  lastFetchedAt : Option Nat
  staleAfter : Nat
  error : Option E
deriving DecidableEq, Repr

/-- Modelled from the spec: the QueryCache maps query keys to entries, at
most one entry per key. -/
abbrev QueryCache (D E : Type) := List (QueryKey × QueryEntry D E)

variable {D E : Type}

/-- Look up the entry stored for a key. -/
def lookupEntry : QueryCache D E → QueryKey → Option (QueryEntry D E)
  | [], _ => none
  | (k', e) :: rest, k => if k' = k then some e else lookupEntry rest k

/-- Store an entry for a key, replacing a previous entry for the same key. -/
def setEntry : QueryCache D E → QueryKey → QueryEntry D E → QueryCache D E
  | [], k, e => [(k, e)]
  | (k', e') :: rest, k, e =>
      if k' = k then (k, e) :: rest else (k', e') :: setEntry rest k e

/-- Modelled from the spec: an entry is fresh when it is not stale, that is
when now - lastFetchedAt < staleAfter; an entry with no recorded fetch time
(never fetched, or invalidated) is stale. -/
def isFresh (e : QueryEntry D E) (now : Nat) : Bool :=
  match e.lastFetchedAt with
  | some t => now - t < e.staleAfter
  | none => false

/-- The cached data for a key, as getQueryData returns it. -/
def getQueryData (c : QueryCache D E) (k : QueryKey) : Option D :=
  (lookupEntry c k).bind (fun e => e.data)

/-- Write the cached data for a key, leaving every other field of the entry
unchanged; when no entry exists yet a fresh idle entry is created to hold the
value. -/
def setQueryData (c : QueryCache D E) (k : QueryKey) (v : Option D) :
    QueryCache D E :=
  match lookupEntry c k with
  | some e => setEntry c k { e with data := v }
  | none => setEntry c k ⟨v, Status.idle, none, 0, none⟩

/-- Modelled from the spec: fetch(key, fetchFn, options).  The asynchronous
producer is modelled by its outcome, an Except value.  If an entry for the
key exists and is not stale, the cached data is returned without invoking the
producer.  Otherwise the producer is invoked: on success the result is
stored, lastFetchedAt is updated and the status becomes Success; on failure
the status becomes Error, the error is stored and prior data is untouched.
The third component of the result records whether the producer was invoked. -/
def fetch (c : QueryCache D E) (k : QueryKey) (f : Except E D)
    (sa now : Nat) : QueryCache D E × Except E (Option D) × Bool :=
  match lookupEntry c k with
  | some e =>
      if isFresh e now then (c, Except.ok e.data, false)
      else
        match f with
        | Except.ok d =>
            (setEntry c k
              { e with
                  data := some d
                  status := Status.success
                  lastFetchedAt := some now
                  staleAfter := sa
                  error := none },
             Except.ok (some d), true)
        | Except.error err =>
            (setEntry c k { e with status := Status.error, error := some err },
             Except.error err, true)
  | none =>
      match f with
      | Except.ok d =>
          (setEntry c k ⟨some d, Status.success, some now, sa, none⟩,
           Except.ok (some d), true)
      | Except.error err =>
          (setEntry c k ⟨none, Status.error, none, sa, some err⟩,
           Except.error err, true)

/-- Modelled from the spec: invalidate(key) marks the entry stale
immediately, forcing the next fetch to re-run the producer; here the recorded
fetch time is erased so the staleness test fails at every later time. -/
def invalidate (c : QueryCache D E) (k : QueryKey) : QueryCache D E :=
  match lookupEntry c k with
  | some e => setEntry c k { e with lastFetchedAt := none }
  | none => c

/-- A rollback token: the key together with the snapshot of the data taken
before the optimistic write, the MutationContext of the spec. -/
structure RollbackToken (D : Type) where
  key : QueryKey
  snapshot : Option D
deriving DecidableEq, Repr

/-- Modelled from the spec: optimisticUpdate(key, updaterFn) captures the
current data into a token, applies the updater synchronously to the cached
entry and returns the token; the status is not changed. -/
def optimisticUpdate (c : QueryCache D E) (k : QueryKey)
    (u : Option D → Option D) : QueryCache D E × RollbackToken D :=
  let prev := getQueryData c k
  (setQueryData c k (u prev), ⟨k, prev⟩)

/-- Modelled from the spec: rollback(token) restores the snapshot captured by
optimisticUpdate. -/
def rollback (c : QueryCache D E) (t : RollbackToken D) : QueryCache D E :=
  setQueryData c t.key t.snapshot

/-- Modelled from the spec: prefetch(key, fetchFn, options) is equivalent to
fetch but its result is discarded; the only effect is warming the cache.  The
algorithm is spelled out independently so its agreement with fetch is a real
statement. -/
def prefetch (c : QueryCache D E) (k : QueryKey) (f : Except E D)
    (sa now : Nat) : QueryCache D E :=
  match lookupEntry c k with
  | some e =>
      if isFresh e now then c
      else
        match f with
        | Except.ok d =>
            setEntry c k
              { e with
                  data := some d
                  status := Status.success
                  lastFetchedAt := some now
                  staleAfter := sa
                  error := none }
        | Except.error err =>
            setEntry c k { e with status := Status.error, error := some err }
  | none =>
      match f with
      | Except.ok d => setEntry c k ⟨some d, Status.success, some now, sa, none⟩
      | Except.error err => setEntry c k ⟨none, Status.error, none, sa, some err⟩

/-- Modelled from the spec: what starting a fetch can do for the caller.
Either the entry is fresh and its cached data is returned, or a fetch for the
key is already in flight and the caller attaches to it, or a new fetch is
started, which is the only case that invokes the producer. -/
inductive StartResult (D : Type) where
  | cached (d : Option D)
  | attached
  | started
deriving DecidableEq, Repr

/-- Modelled from the spec: the start of a fetch, with the in-flight marker
required by the de-duplication note of the spec represented by the Loading
status.  A fresh entry answers from the cache; an entry whose fetch is in
flight absorbs the caller; otherwise the entry (created if needed) is marked
Loading and the producer is invoked. -/
def fetchStart (c : QueryCache D E) (k : QueryKey) (sa now : Nat) :
    QueryCache D E × StartResult D :=
  match lookupEntry c k with
  | some e =>
      if isFresh e now then (c, StartResult.cached e.data)
      else if e.status = Status.loading then (c, StartResult.attached)
      else
        (setEntry c k { e with status := Status.loading, staleAfter := sa },
         StartResult.started)
  | none =>
      (setEntry c k ⟨none, Status.loading, none, sa, none⟩, StartResult.started)

/-- Modelled from the spec: the completion of an in-flight fetch.  It applies
only while the entry is Loading: success stores the data, records the fetch
time and sets Success; failure sets Error and stores the error, leaving the
data untouched. -/
def fetchComplete (c : QueryCache D E) (k : QueryKey) (outcome : Except E D)
    (now : Nat) : QueryCache D E :=
  match lookupEntry c k with
  | some e =>
      if e.status = Status.loading then
        match outcome with
        | Except.ok d =>
            setEntry c k
              { e with
                  data := some d
                  status := Status.success
                  lastFetchedAt := some now
                  error := none }
        | Except.error err =>
            setEntry c k { e with status := Status.error, error := some err }
      else c
  | none => c

/-- One when the start result stands for an invocation of the producer. -/
def startedCount : StartResult D → Nat
  | StartResult.started => 1
  | _ => 0

/-- A burst of fetch starts for one key at the given times, returning the
final cache and how many of them invoked the producer. -/
def startBurst (k : QueryKey) (sa : Nat) :
    QueryCache D E → List Nat → QueryCache D E × Nat
  | c, [] => (c, 0)
  | c, now :: rest =>
      let p := fetchStart c k sa now
      let q := startBurst k sa p.1 rest
      (q.1, startedCount p.2 + q.2)

/-- The cache-mutating operations of QueryCache, at the granularity at which
status changes are observable: start and completion of a fetch, invalidation,
optimistic update and rollback. -/
inductive CacheOp (D E : Type) where
  | start (k : QueryKey) (sa now : Nat)
  | complete (k : QueryKey) (outcome : Except E D) (now : Nat)
  | invalidateKey (k : QueryKey)
  | optUpdate (k : QueryKey) (u : Option D → Option D)
  | rollbackTo (t : RollbackToken D)

/-- The effect of one operation on the cache. -/
def applyOp (c : QueryCache D E) : CacheOp D E → QueryCache D E
  | CacheOp.start k sa now => (fetchStart c k sa now).1
  | CacheOp.complete k outcome now => fetchComplete c k outcome now
  | CacheOp.invalidateKey k => invalidate c k
  | CacheOp.optUpdate k u => (optimisticUpdate c k u).1
  | CacheOp.rollbackTo t => rollback c t

/-- The status of the entry for a key; a key with no entry counts as Idle. -/
def statusOf (c : QueryCache D E) (k : QueryKey) : Status :=
  ((lookupEntry c k).map (fun e => e.status)).getD Status.idle

/-- The status transitions the claim allows: staying put, Idle to Loading,
Loading to Success, Loading to Error, and Success to Loading. -/
def claimedOk (s t : Status) : Bool :=
  s == t
  || (s == Status.idle && t == Status.loading)
  || (s == Status.loading && t == Status.success)
  || (s == Status.loading && t == Status.error)
  || (s == Status.success && t == Status.loading)

/-- The claimed transitions together with Error to Loading, the retry of a
failed fetch. -/
def allowedOk (s t : Status) : Bool :=
  claimedOk s t || (s == Status.error && t == Status.loading)

end QC

namespace JS

/-- A JavaScript primitive value as the todos of summary.js use them:
numbers and strings. -/
inductive JsValue where
  | num (n : Int)
  | str (s : String)
deriving DecidableEq, Repr

/-- A JavaScript object: a finite ordered list of named fields. -/
abbrev JsObj := List (String × JsValue)

/-- Reading a field of an object: the first binding of the name, none when
the field is absent (undefined). -/
def getField : JsObj → String → Option JsValue
  | [], _ => none
  | (k, v) :: rest, f => if k = f then some v else getField rest f

/-- The double spread of summary.js line 143: the fields of the first object
in their order, each overridden by the second object where it has the field,
followed by the fields only the second object has. -/
def spreadMerge (a b : JsObj) : JsObj :=
  a.map (fun p => (p.1, (getField b p.1).getD p.2))
    ++ b.filter (fun p => (getField a p.1).isNone)

/-- The runtime error raised by reading .map on undefined. -/
inductive JsError where
  | typeError
deriving DecidableEq, Repr

/-- Embedded from src/Boards/summary.js line 142-144: the body of the arrow
function mapped over the old todos; a todo whose id is strictly equal to
newTodo.id becomes the spread merge of the todo with newTodo, every other
todo is returned as it is.  Strict equality of two absent fields is true,
as undefined === undefined is in JavaScript. -/
def applyTodo (newTodo todo : JsObj) : JsObj :=
  if getField todo "id" = getField newTodo "id" then spreadMerge todo newTodo
  else todo

/-- Embedded from src/Boards/summary.js lines 141-145: the optimistic
updater that onMutate of UpdateTodo passes to setQueryData.  When the cache
holds nothing for the key, old is undefined and old.map raises a TypeError;
otherwise the todos are mapped through applyTodo. -/
def updateTodoUpdater (newTodo : JsObj) :
    Option (List JsObj) → Except JsError (List JsObj)
  | none => Except.error JsError.typeError
  | some old => Except.ok (old.map (applyTodo newTodo))

end JS

namespace QC

variable {D E : Type}

theorem lookupEntry_setEntry_self (c : QueryCache D E) (k : QueryKey)
    (e : QueryEntry D E) : lookupEntry (setEntry c k e) k = some e := by
  induction c with
  | nil => simp [setEntry, lookupEntry]
  | cons p rest ih =>
      obtain ⟨k', e'⟩ := p
      by_cases h : k' = k
      · simp [setEntry, lookupEntry, h]
      · simp [setEntry, lookupEntry, h, ih]

theorem lookupEntry_setEntry_ne (c : QueryCache D E) (k k' : QueryKey)
    (e : QueryEntry D E) (h : k' ≠ k) :
    lookupEntry (setEntry c k' e) k = lookupEntry c k := by
  induction c with
  | nil => simp [setEntry, lookupEntry, h]
  | cons p rest ih =>
      obtain ⟨k'', e''⟩ := p
      by_cases h2 : k'' = k'
      · subst h2
        simp [setEntry, lookupEntry, h]
      · simp [setEntry, lookupEntry, h2, ih]

theorem getQueryData_setQueryData_self (c : QueryCache D E) (k : QueryKey)
    (v : Option D) : getQueryData (setQueryData c k v) k = v := by
  unfold setQueryData
  cases h : lookupEntry c k with
  | some e => simp [getQueryData, lookupEntry_setEntry_self]
  | none => simp [getQueryData, lookupEntry_setEntry_self]

theorem statusOf_setEntry_self (c : QueryCache D E) (k : QueryKey)
    (e : QueryEntry D E) : statusOf (setEntry c k e) k = e.status := by
  simp [statusOf, lookupEntry_setEntry_self]

theorem statusOf_setEntry_ne (c : QueryCache D E) (k k' : QueryKey)
    (e : QueryEntry D E) (h : k' ≠ k) :
    statusOf (setEntry c k' e) k = statusOf c k := by
  simp [statusOf, lookupEntry_setEntry_ne c k k' e h]

theorem allowedOk_refl (s : Status) : allowedOk s s = true := by
  cases s <;> rfl

theorem allowedOk_to_loading (s : Status) :
    allowedOk s Status.loading = true := by
  cases s <;> rfl

theorem statusOf_setQueryData (c : QueryCache D E) (k' : QueryKey)
    (v : Option D) (k : QueryKey) :
    statusOf (setQueryData c k' v) k = statusOf c k := by
  unfold setQueryData
  cases hl : lookupEntry c k' with
  | some e =>
      by_cases hk : k' = k
      · subst hk
        simp [statusOf, lookupEntry_setEntry_self, hl]
      · simp [statusOf, lookupEntry_setEntry_ne c k k' _ hk]
  | none =>
      by_cases hk : k' = k
      · subst hk
        simp [statusOf, lookupEntry_setEntry_self, hl]
      · simp [statusOf, lookupEntry_setEntry_ne c k k' _ hk]

theorem statusOf_invalidate (c : QueryCache D E) (k' k : QueryKey) :
    statusOf (invalidate c k') k = statusOf c k := by
  unfold invalidate
  cases hl : lookupEntry c k' with
  | some e =>
      by_cases hk : k' = k
      · subst hk
        simp [statusOf, lookupEntry_setEntry_self, hl]
      · simp [statusOf, lookupEntry_setEntry_ne c k k' _ hk]
  | none => rfl

theorem startBurst_loading (k : QueryKey) (sa : Nat) (c : QueryCache D E)
    (e : QueryEntry D E) (ts : List Nat) (hl : lookupEntry c k = some e)
    (hs : e.status = Status.loading) : startBurst k sa c ts = (c, 0) := by
  induction ts with
  | nil => rfl
  | cons now rest ih =>
      have h1 : fetchStart c k sa now =
          (c, if isFresh e now then StartResult.cached e.data
              else StartResult.attached) := by
        unfold fetchStart
        rw [hl]
        by_cases hf : isFresh e now <;> simp [hf, hs]
      unfold startBurst
      rw [h1]
      by_cases hf : isFresh e now <;> simp [hf, startedCount, ih]

theorem fetchStart_started_state (c : QueryCache D E) (k : QueryKey)
    (sa now : Nat) (h : (fetchStart c k sa now).2 = StartResult.started) :
    ∃ e₁, lookupEntry (fetchStart c k sa now).1 k = some e₁
      ∧ e₁.status = Status.loading := by
  unfold fetchStart at h ⊢
  cases hl : lookupEntry c k with
  | none =>
      exact ⟨⟨none, Status.loading, none, sa, none⟩,
        by simp [lookupEntry_setEntry_self], rfl⟩
  | some e =>
      rw [hl] at h
      by_cases hf : isFresh e now
      · simp [hf] at h
      · by_cases hst : e.status = Status.loading
        · simp [hf, hst] at h
        · exact ⟨{ e with status := Status.loading, staleAfter := sa },
            by simp [hf, hst, lookupEntry_setEntry_self], rfl⟩

theorem fetchComplete_ok_data (c : QueryCache D E) (k : QueryKey)
    (e : QueryEntry D E) (d : D) (t : Nat) (hl : lookupEntry c k = some e)
    (hs : e.status = Status.loading) :
    getQueryData (fetchComplete c k (Except.ok d) t) k = some d := by
  unfold fetchComplete
  rw [hl]
  simp [hs, getQueryData, lookupEntry_setEntry_self]

theorem fetchComplete_error_stored (c : QueryCache D E) (k : QueryKey)
    (e : QueryEntry D E) (err : E) (t : Nat) (hl : lookupEntry c k = some e)
    (hs : e.status = Status.loading) :
    (lookupEntry (fetchComplete c k (Except.error err) t) k).map
        (fun e' => e'.error) = some (some err) := by
  unfold fetchComplete
  rw [hl]
  simp [hs, lookupEntry_setEntry_self]

theorem fetch_ok_invoked_lookup (c : QueryCache D E) (k : QueryKey) (d : D)
    (sa now : Nat) (h : (fetch c k (Except.ok d) sa now).2.2 = true) :
    lookupEntry (fetch c k (Except.ok d) sa now).1 k =
      some ⟨some d, Status.success, some now, sa, none⟩ := by
  unfold fetch at h ⊢
  cases hl : lookupEntry c k with
  | none => simp [lookupEntry_setEntry_self]
  | some e =>
      by_cases hf : isFresh e now
      · rw [hl] at h
        simp [hf] at h
      · simp [hf, lookupEntry_setEntry_self]

end QC

/-- C1: optimisticUpdate followed by rollback with the returned token
restores the cached data for the key to its exact pre-update value. -/
theorem optimisticUpdate_rollback_restores {D E : Type}
    (c : QC.QueryCache D E) (k : QC.QueryKey) (u : Option D → Option D) :
    QC.getQueryData
      (QC.rollback (QC.optimisticUpdate c k u).1 (QC.optimisticUpdate c k u).2)
      k = QC.getQueryData c k := by
  simp [QC.optimisticUpdate, QC.rollback, QC.getQueryData_setQueryData_self]

/-- C2: a fetch on an existing entry that is not stale returns the cached
data without invoking the producer; after a successful fetch that did invoke
the producer, a second fetch within the staleness window does not invoke it
and returns the stored data, while a fetch after the window elapses invokes
it again. -/
theorem fetch_staleness {D E : Type} (c : QC.QueryCache D E)
    (k : QC.QueryKey) (f f' : Except E D) (d : D) (sa now now' : Nat) :
    (∀ e, QC.lookupEntry c k = some e → QC.isFresh e now = true →
        QC.fetch c k f sa now = (c, Except.ok e.data, false))
    ∧ ((QC.fetch c k (Except.ok d) sa now).2.2 = true → now' - now < sa →
        QC.fetch (QC.fetch c k (Except.ok d) sa now).1 k f' sa now' =
          ((QC.fetch c k (Except.ok d) sa now).1, Except.ok (some d), false))
    ∧ ((QC.fetch c k (Except.ok d) sa now).2.2 = true → sa ≤ now' - now →
        (QC.fetch (QC.fetch c k (Except.ok d) sa now).1 k f' sa now').2.2 =
          true) := by
  refine ⟨?_, ?_, ?_⟩
  · intro e he hf
    unfold QC.fetch
    rw [he]
    simp [hf]
  · intro hinv hlt
    have hl := QC.fetch_ok_invoked_lookup c k d sa now hinv
    generalize hc : (QC.fetch c k (Except.ok d) sa now).1 = c₁ at hl ⊢
    unfold QC.fetch
    rw [hl]
    simp [QC.isFresh, hlt]
  · intro hinv hge
    have hl := QC.fetch_ok_invoked_lookup c k d sa now hinv
    generalize hc : (QC.fetch c k (Except.ok d) sa now).1 = c₁ at hl ⊢
    unfold QC.fetch
    rw [hl]
    have hfr : QC.isFresh (⟨some d, QC.Status.success, some now, sa, none⟩ :
        QC.QueryEntry D E) now' = false := by
      simp [QC.isFresh]
      omega
    cases f' <;> simp [hfr]

/-- C2 witness: the scenario of the spec at concrete inputs; key ["user"],
staleAfter 5000, first fetch at time 0, second at 1000 (no invocation),
third at 6000 (invocation). -/
theorem fetch_staleness_witness :
    ((QC.fetch (D := Nat) (E := Nat) [] [QC.Prim.s "user"] (Except.ok 42)
        5000 0).2.2 = true)
    ∧ QC.fetch (QC.fetch (D := Nat) (E := Nat) [] [QC.Prim.s "user"]
          (Except.ok 42) 5000 0).1 [QC.Prim.s "user"] (Except.ok 99) 5000 1000
        = ((QC.fetch (D := Nat) (E := Nat) [] [QC.Prim.s "user"]
            (Except.ok 42) 5000 0).1, Except.ok (some 42), false)
    ∧ (QC.fetch (QC.fetch (D := Nat) (E := Nat) [] [QC.Prim.s "user"]
          (Except.ok 42) 5000 0).1 [QC.Prim.s "user"] (Except.ok 99) 5000
          6000).2.2 = true :=
  ⟨by decide,
   (fetch_staleness [] [QC.Prim.s "user"] (Except.ok 42) (Except.ok 99) 42
      5000 0 1000).2.1 (by decide) (by decide),
   (fetch_staleness [] [QC.Prim.s "user"] (Except.ok 42) (Except.ok 99) 42
      5000 0 6000).2.2 (by decide) (by decide)⟩

/-- C3: a fetch issued after invalidate always invokes the producer, no
matter how recently the entry was fetched or what its staleAfter setting
is. -/
theorem invalidate_forces_fetch {D E : Type} (c : QC.QueryCache D E)
    (k : QC.QueryKey) (f : Except E D) (sa now : Nat) :
    (QC.fetch (QC.invalidate c k) k f sa now).2.2 = true := by
  unfold QC.invalidate
  cases h : QC.lookupEntry c k with
  | none =>
      unfold QC.fetch
      rw [h]
      cases f <;> simp
  | some e =>
      unfold QC.fetch
      cases f <;> simp [QC.lookupEntry_setEntry_self, QC.isFresh]

/-- C4: when the producer fails during a fetch that invokes it, the error is
captured in the entry rather than propagated: the status becomes Error, the
error value is stored, and previously cached data is left unchanged. -/
theorem fetch_error_captured {D E : Type} (c : QC.QueryCache D E)
    (k : QC.QueryKey) (err : E) (sa now : Nat) :
    (∀ e, QC.lookupEntry c k = some e → QC.isFresh e now = false →
        (QC.fetch c k (Except.error err) sa now).2.1 = Except.error err
        ∧ ∃ e', QC.lookupEntry (QC.fetch c k (Except.error err) sa now).1 k =
              some e'
            ∧ e'.status = QC.Status.error ∧ e'.error = some err
            ∧ e'.data = e.data)
    ∧ (QC.lookupEntry c k = none →
        (QC.fetch c k (Except.error err) sa now).2.1 = Except.error err
        ∧ ∃ e', QC.lookupEntry (QC.fetch c k (Except.error err) sa now).1 k =
              some e'
            ∧ e'.status = QC.Status.error ∧ e'.error = some err
            ∧ e'.data = none) := by
  constructor
  · intro e he hf
    unfold QC.fetch
    rw [he]
    refine ⟨?_, { e with status := QC.Status.error, error := some err },
      ?_, rfl, rfl, rfl⟩
    · simp [hf]
    · simp [hf, QC.lookupEntry_setEntry_self]
  · intro he
    unfold QC.fetch
    rw [he]
    exact ⟨rfl, ⟨none, QC.Status.error, none, sa, some err⟩,
      by simp [QC.lookupEntry_setEntry_self], rfl, rfl, rfl⟩

/-- C4 witness: a failing fetch on a cache whose ["todos"] entry is stale
keeps the old data and records the error, and a failing first fetch on the
empty cache stores the error with no data. -/
theorem fetch_error_captured_witness :
    (QC.lookupEntry (D := Nat) (E := Nat)
        [([QC.Prim.s "todos"], ⟨some 7, QC.Status.success, some 0, 5, none⟩)]
        [QC.Prim.s "todos"] =
      some ⟨some 7, QC.Status.success, some 0, 5, none⟩)
    ∧ (QC.isFresh (D := Nat) (E := Nat)
        ⟨some 7, QC.Status.success, some 0, 5, none⟩ 100 = false)
    ∧ ((QC.fetch (D := Nat) (E := Nat)
        [([QC.Prim.s "todos"], ⟨some 7, QC.Status.success, some 0, 5, none⟩)]
        [QC.Prim.s "todos"] (Except.error 99) 5 100).2.1 = Except.error 99
      ∧ ∃ e', QC.lookupEntry (QC.fetch (D := Nat) (E := Nat)
            [([QC.Prim.s "todos"],
              ⟨some 7, QC.Status.success, some 0, 5, none⟩)]
            [QC.Prim.s "todos"] (Except.error 99) 5 100).1
            [QC.Prim.s "todos"] = some e'
          ∧ e'.status = QC.Status.error ∧ e'.error = some 99
          ∧ e'.data = some 7) :=
  ⟨by decide, by decide,
   (fetch_error_captured
      [([QC.Prim.s "todos"], ⟨some 7, QC.Status.success, some 0, 5, none⟩)]
      [QC.Prim.s "todos"] 99 5 100).1
     ⟨some 7, QC.Status.success, some 0, 5, none⟩ (by decide) (by decide)⟩

/-- C5: optimisticUpdate applies the updater to the data of the entry and
changes no other field: status, lastFetchedAt, staleAfter and error are all
unchanged; in particular a Success status stays Success. -/
theorem optimisticUpdate_frame {D E : Type} (c : QC.QueryCache D E)
    (k : QC.QueryKey) (u : Option D → Option D) (e : QC.QueryEntry D E)
    (h : QC.lookupEntry c k = some e) :
    ∃ e', QC.lookupEntry (QC.optimisticUpdate c k u).1 k = some e'
      ∧ e'.data = u e.data ∧ e'.status = e.status
      ∧ e'.lastFetchedAt = e.lastFetchedAt ∧ e'.staleAfter = e.staleAfter
      ∧ e'.error = e.error := by
  refine ⟨{ e with data := u e.data }, ?_, rfl, rfl, rfl, rfl, rfl⟩
  simp [QC.optimisticUpdate, QC.setQueryData, QC.getQueryData, h,
    QC.lookupEntry_setEntry_self]

/-- C5 witness: an optimistic write on a concrete Success entry leaves every
field but data unchanged. -/
theorem optimisticUpdate_frame_witness :
    ∃ e', QC.lookupEntry
        (QC.optimisticUpdate (D := Nat) (E := Nat)
          [([QC.Prim.s "todos"], ⟨some 1, QC.Status.success, some 3, 9, none⟩)]
          [QC.Prim.s "todos"] (fun x => (x.map (fun v => v + 1)))).1
        [QC.Prim.s "todos"] = some e'
      ∧ e'.data = (some 1).map (fun v => v + 1)
      ∧ e'.status = QC.Status.success ∧ e'.lastFetchedAt = some 3
      ∧ e'.staleAfter = 9 ∧ e'.error = none :=
  optimisticUpdate_frame
    [([QC.Prim.s "todos"], ⟨some 1, QC.Status.success, some 3, 9, none⟩)]
    [QC.Prim.s "todos"] (fun x => (x.map (fun v => v + 1)))
    ⟨some 1, QC.Status.success, some 3, 9, none⟩ (by decide)

/-- C8: prefetch changes the cache exactly as fetch does; it only drops the
returned value. -/
theorem prefetch_eq_fetch_state {D E : Type} (c : QC.QueryCache D E)
    (k : QC.QueryKey) (f : Except E D) (sa now : Nat) :
    QC.prefetch c k f sa now = (QC.fetch c k f sa now).1 := by
  unfold QC.prefetch QC.fetch
  cases h : QC.lookupEntry c k with
  | none => cases f <;> rfl
  | some e =>
      by_cases hf : QC.isFresh e now
      · simp [hf]
      · cases f <;> simp [hf]

namespace JS

theorem getField_append (a b : JsObj) (f : String) :
    getField (a ++ b) f = (getField a f).orElse (fun _ => getField b f) := by
  induction a with
  | nil => rfl
  | cons p rest ih =>
      obtain ⟨key, v⟩ := p
      by_cases hk : key = f
      · simp [getField, hk, Option.orElse]
      · simp [getField, hk, ih]

theorem getField_override (a b : JsObj) (f : String) :
    getField (a.map (fun p => (p.1, (getField b p.1).getD p.2))) f =
      (getField a f).map (fun v => (getField b f).getD v) := by
  induction a with
  | nil => rfl
  | cons p rest ih =>
      obtain ⟨key, v⟩ := p
      by_cases hk : key = f
      · subst hk
        simp [getField]
      · simp [getField, hk, ih]

theorem getField_filter_keep (b : JsObj) (P : String × JsValue → Bool)
    (f : String) (hkeep : ∀ v, P (f, v) = true) :
    getField (b.filter P) f = getField b f := by
  induction b with
  | nil => rfl
  | cons p rest ih =>
      obtain ⟨key, v⟩ := p
      by_cases hk : key = f
      · subst hk
        simp [List.filter_cons, hkeep v, getField]
      · cases hP : P (key, v) <;>
          simp [List.filter_cons, hP, getField, hk, ih]

theorem getField_filter_drop (b : JsObj) (P : String × JsValue → Bool)
    (f : String) (hdrop : ∀ v, P (f, v) = false) :
    getField (b.filter P) f = none := by
  induction b with
  | nil => rfl
  | cons p rest ih =>
      obtain ⟨key, v⟩ := p
      by_cases hk : key = f
      · subst hk
        simp [List.filter_cons, hdrop v, ih]
      · cases hP : P (key, v) <;>
          simp [List.filter_cons, hP, getField, hk, ih]

theorem getField_spreadMerge (a b : JsObj) (f : String) :
    getField (spreadMerge a b) f =
      (getField b f).orElse (fun _ => getField a f) := by
  unfold spreadMerge
  rw [getField_append, getField_override]
  cases haf : getField a f with
  | none =>
      have hkeep : ∀ v : JsValue,
          (fun p : String × JsValue => (getField a p.1).isNone) (f, v) =
            true := by
        intro v
        simp [haf]
      rw [getField_filter_keep b _ f hkeep]
      cases getField b f <;> simp [Option.orElse]
  | some v =>
      have hdrop : ∀ w : JsValue,
          (fun p : String × JsValue => (getField a p.1).isNone) (f, w) =
            false := by
        intro w
        simp [haf]
      rw [getField_filter_drop b _ f hdrop]
      cases getField b f <;> simp [Option.orElse]

end JS

/-- C6: once a fetch start for a key has invoked the producer and is in
flight, any burst of further fetch starts for that key leaves the cache
unchanged and invokes the producer zero further times, so the whole group
invokes it exactly once; and when the single in-flight fetch completes, its
outcome is what the cache then answers with for every attached caller: the
data on success, the error on failure. -/
theorem fetch_dedup {D E : Type} (c : QC.QueryCache D E) (k : QC.QueryKey)
    (sa now : Nat) (ts : List Nat) (d : D) (err : E) (t t' : Nat)
    (h : (QC.fetchStart c k sa now).2 = QC.StartResult.started) :
    QC.startBurst k sa (QC.fetchStart c k sa now).1 ts =
      ((QC.fetchStart c k sa now).1, 0)
    ∧ QC.startedCount (QC.fetchStart c k sa now).2
        + (QC.startBurst k sa (QC.fetchStart c k sa now).1 ts).2 = 1
    ∧ QC.getQueryData
        (QC.fetchComplete (QC.fetchStart c k sa now).1 k (Except.ok d) t) k =
        some d
    ∧ (QC.lookupEntry
          (QC.fetchComplete (QC.fetchStart c k sa now).1 k (Except.error err)
            t') k).map (fun e' => e'.error) = some (some err) := by
  obtain ⟨e₁, hl, hs⟩ := QC.fetchStart_started_state c k sa now h
  have hb := QC.startBurst_loading k sa _ e₁ ts hl hs
  refine ⟨hb, ?_, QC.fetchComplete_ok_data _ k e₁ d t hl hs,
    QC.fetchComplete_error_stored _ k e₁ err t' hl hs⟩
  rw [h, hb]
  rfl

/-- C6 witness: a first fetch start for ["todos"] on the empty cache invokes
the producer; a burst of three more starts adds no invocation, and the
completed value is what the cache then holds. -/
theorem fetch_dedup_witness :
    (QC.fetchStart (D := Nat) (E := Nat) [] [QC.Prim.s "todos"] 5000 0).2 =
      QC.StartResult.started
    ∧ QC.startedCount
        (QC.fetchStart (D := Nat) (E := Nat) [] [QC.Prim.s "todos"] 5000 0).2
      + (QC.startBurst [QC.Prim.s "todos"] 5000
          (QC.fetchStart (D := Nat) (E := Nat) [] [QC.Prim.s "todos"]
            5000 0).1 [1, 2, 3]).2 = 1
    ∧ QC.getQueryData
        (QC.fetchComplete
          (QC.fetchStart (D := Nat) (E := Nat) [] [QC.Prim.s "todos"]
            5000 0).1 [QC.Prim.s "todos"] (Except.ok 5) 10)
        [QC.Prim.s "todos"] = some 5 :=
  ⟨by decide,
   (fetch_dedup [] [QC.Prim.s "todos"] 5000 0 [1, 2, 3] 5 9 10 11
      (by decide)).2.1,
   (fetch_dedup [] [QC.Prim.s "todos"] 5000 0 [1, 2, 3] 5 9 10 11
      (by decide)).2.2.1⟩

/-- C7 counterexample: the claimed transition set is violated by the model
on a reachable cache.  Starting a fetch for ["todos"] on the empty cache,
completing it with an error, and starting a fetch again moves the status
from Error to Loading, a transition the claim does not list. -/
theorem status_transition_counterexample :
    QC.statusOf
        (QC.applyOp
          (QC.applyOp ([] : QC.QueryCache Nat Nat)
            (QC.CacheOp.start [QC.Prim.s "todos"] 0 0))
          (QC.CacheOp.complete [QC.Prim.s "todos"] (Except.error 7) 1))
        [QC.Prim.s "todos"] = QC.Status.error
    ∧ QC.statusOf
        (QC.applyOp
          (QC.applyOp
            (QC.applyOp ([] : QC.QueryCache Nat Nat)
              (QC.CacheOp.start [QC.Prim.s "todos"] 0 0))
            (QC.CacheOp.complete [QC.Prim.s "todos"] (Except.error 7) 1))
          (QC.CacheOp.start [QC.Prim.s "todos"] 0 2))
        [QC.Prim.s "todos"] = QC.Status.loading
    ∧ QC.claimedOk QC.Status.error QC.Status.loading = false
    ∧ QC.claimedOk
        (QC.statusOf
          (QC.applyOp
            (QC.applyOp ([] : QC.QueryCache Nat Nat)
              (QC.CacheOp.start [QC.Prim.s "todos"] 0 0))
            (QC.CacheOp.complete [QC.Prim.s "todos"] (Except.error 7) 1))
          [QC.Prim.s "todos"])
        (QC.statusOf
          (QC.applyOp
            (QC.applyOp
              (QC.applyOp ([] : QC.QueryCache Nat Nat)
                (QC.CacheOp.start [QC.Prim.s "todos"] 0 0))
              (QC.CacheOp.complete [QC.Prim.s "todos"] (Except.error 7) 1))
            (QC.CacheOp.start [QC.Prim.s "todos"] 0 2))
          [QC.Prim.s "todos"]) = false := by
  decide

/-- C7 (amended): every operation of the cache either leaves the status of a
key unchanged or moves it along Idle to Loading, Loading to Success, Loading
to Error, Success to Loading, or Error to Loading; the last transition, the
retry of a failed fetch, has to be added to the claimed set. -/
theorem status_transitions_allowed {D E : Type} (c : QC.QueryCache D E)
    (op : QC.CacheOp D E) (k : QC.QueryKey) :
    QC.allowedOk (QC.statusOf c k) (QC.statusOf (QC.applyOp c op) k) =
      true := by
  cases op with
  | start k' sa now =>
      simp only [QC.applyOp]
      unfold QC.fetchStart
      cases hl : QC.lookupEntry c k' with
      | none =>
          by_cases hk : k' = k
          · subst hk
            simp [QC.statusOf, hl, QC.lookupEntry_setEntry_self,
              QC.allowedOk, QC.claimedOk]
          · simp [QC.statusOf_setEntry_ne c k k' _ hk, QC.allowedOk_refl]
      | some e =>
          by_cases hf : QC.isFresh e now
          · simp [hf, QC.allowedOk_refl]
          · by_cases hst : e.status = QC.Status.loading
            · simp [hf, hst, QC.allowedOk_refl]
            · by_cases hk : k' = k
              · subst hk
                have h1 : QC.statusOf c k' = e.status := by
                  simp [QC.statusOf, hl]
                simp [hf, hst, h1, QC.statusOf_setEntry_self,
                  QC.allowedOk_to_loading]
              · simp [hf, hst, QC.statusOf_setEntry_ne c k k' _ hk,
                  QC.allowedOk_refl]
  | complete k' outcome now =>
      simp only [QC.applyOp]
      unfold QC.fetchComplete
      cases hl : QC.lookupEntry c k' with
      | none => simp [QC.allowedOk_refl]
      | some e =>
          by_cases hst : e.status = QC.Status.loading
          · have h1 : QC.statusOf c k' = QC.Status.loading := by
              simp [QC.statusOf, hl, hst]
            cases outcome with
            | ok d =>
                by_cases hk : k' = k
                · subst hk
                  simp [hst, h1, QC.statusOf_setEntry_self, QC.allowedOk,
                    QC.claimedOk]
                · simp [hst, QC.statusOf_setEntry_ne c k k' _ hk,
                    QC.allowedOk_refl]
            | error err =>
                by_cases hk : k' = k
                · subst hk
                  simp [hst, h1, QC.statusOf_setEntry_self, QC.allowedOk,
                    QC.claimedOk]
                · simp [hst, QC.statusOf_setEntry_ne c k k' _ hk,
                    QC.allowedOk_refl]
          · simp [hst, QC.allowedOk_refl]
  | invalidateKey k' =>
      simp [QC.applyOp, QC.statusOf_invalidate, QC.allowedOk_refl]
  | optUpdate k' u =>
      simp [QC.applyOp, QC.optimisticUpdate, QC.statusOf_setQueryData,
        QC.allowedOk_refl]
  | rollbackTo tok =>
      simp [QC.applyOp, QC.rollback, QC.statusOf_setQueryData,
        QC.allowedOk_refl]

/-- C9: the optimistic updater of UpdateTodo reads old.map, so with nothing
cached for the key (old undefined) it raises a TypeError instead of
producing a value; with any cached array it succeeds. -/
theorem updateTodo_requires_cached_array (newTodo : JS.JsObj) :
    JS.updateTodoUpdater newTodo none = Except.error JS.JsError.typeError
    ∧ ∀ old, ∃ r, JS.updateTodoUpdater newTodo (some old) = Except.ok r :=
  ⟨rfl, fun _ => ⟨_, rfl⟩⟩

/-- C10: the optimistic update of UpdateTodo keeps the length and order of
the todos, leaves every todo whose id differs from newTodo.id unchanged, and
replaces a todo with matching id by the merge of the todo with newTodo, in
which a field of newTodo wins and every other field keeps the value the todo
had. -/
theorem updateTodo_optimistic_frame (todos : List JS.JsObj)
    (newTodo : JS.JsObj) :
    ∃ r, JS.updateTodoUpdater newTodo (some todos) = Except.ok r
      ∧ r.length = todos.length
      ∧ ∀ (i : Nat) (t : JS.JsObj), todos[i]? = some t →
          (JS.getField t "id" ≠ JS.getField newTodo "id" → r[i]? = some t)
          ∧ (JS.getField t "id" = JS.getField newTodo "id" →
              r[i]? = some (JS.spreadMerge t newTodo)
              ∧ ∀ f, JS.getField (JS.spreadMerge t newTodo) f =
                  (JS.getField newTodo f).orElse
                    (fun _ => JS.getField t f)) := by
  refine ⟨todos.map (JS.applyTodo newTodo), rfl, by simp, ?_⟩
  intro i t ht
  have hr : (todos.map (JS.applyTodo newTodo))[i]? =
      some (JS.applyTodo newTodo t) := by
    rw [List.getElem?_map, ht]
    rfl
  constructor
  · intro hne
    rw [hr]
    simp [JS.applyTodo, hne]
  · intro heq
    refine ⟨?_, fun f => JS.getField_spreadMerge t newTodo f⟩
    rw [hr]
    simp [JS.applyTodo, heq]

/-- C10 witness: the scenario of the spec, a single todo with id 1 and title
A updated by a newTodo with id 1 and title B, is replaced by the merge of
the two. -/
theorem updateTodo_optimistic_frame_witness :
    ([[("id", JS.JsValue.num 1), ("title", JS.JsValue.str "A")]] :
        List JS.JsObj)[0]? =
      some [("id", JS.JsValue.num 1), ("title", JS.JsValue.str "A")]
    ∧ JS.getField [("id", JS.JsValue.num 1), ("title", JS.JsValue.str "A")]
        "id" =
      JS.getField [("id", JS.JsValue.num 1), ("title", JS.JsValue.str "B")]
        "id"
    ∧ ∃ r, JS.updateTodoUpdater
          [("id", JS.JsValue.num 1), ("title", JS.JsValue.str "B")]
          (some [[("id", JS.JsValue.num 1), ("title", JS.JsValue.str "A")]]) =
          Except.ok r
        ∧ r.length = 1
        ∧ r[0]? = some (JS.spreadMerge
            [("id", JS.JsValue.num 1), ("title", JS.JsValue.str "A")]
            [("id", JS.JsValue.num 1), ("title", JS.JsValue.str "B")]) := by
  obtain ⟨r, h1, h2, h3⟩ := updateTodo_optimistic_frame
    [[("id", JS.JsValue.num 1), ("title", JS.JsValue.str "A")]]
    [("id", JS.JsValue.num 1), ("title", JS.JsValue.str "B")]
  refine ⟨by decide, by decide, r, h1, h2, ?_⟩
  exact ((h3 0 [("id", JS.JsValue.num 1), ("title", JS.JsValue.str "A")]
    (by decide)).2 (by decide)).1
